import Mathlib

/-!
Shallow embedding of the StoryWeaver graph viewer
(src/components/Editor.tsx, GraphViewer component) together with the
surrounding data model (src/unnamed/part_000 type declarations).

Strings of the source language are modelled as `List Char`; machine
floats of the geometry are modelled as real numbers.
-/

/-- Model of DialogueChoice (types file): text, nextId, optional condition. -/
structure DialogueChoice where
  text : List Char
  nextId : List Char
  condition : Option (List Char) := none
deriving DecidableEq

/-- Model of DialogueNode (types file): id, speaker, text, optional choices. -/
structure DialogueNode where
  id : List Char
  speaker : Option (List Char) := none
  text : List Char
  choices : Option (List DialogueChoice) := none
deriving DecidableEq

/-- Model of GraphLink (types file): source id, target id, label, bidirectional. -/
structure GraphLink where
  source : List Char
  target : List Char
  label : List Char
  bidirectional : Bool
deriving DecidableEq

/-- The choices iterated by the builder: `if (node.choices)` guards the
forEach, and a missing list contributes nothing (Editor.tsx lines 115-123,
126-141). -/
def choicesOf (n : DialogueNode) : List DialogueChoice := n.choices.getD []

/-- `nodeMap.has(nid)`: the node map is keyed by the ids of the input data
(Editor.tsx line 111), so the lookup is id membership. -/
def hasNode (data : List DialogueNode) (nid : List Char) : Bool :=
  decide (nid ∈ data.map DialogueNode.id)

/-- The string key the source builds with a template literal:
the two ids joined by the bar character (Editor.tsx lines 119, 130). -/
def key (a b : List Char) : List Char := a ++ '|' :: b

/-- First pass (Editor.tsx lines 115-123): the set of joined keys for
every choice whose target resolves.  Set membership agrees with list
membership, so the set is modelled as the list of added keys. -/
def linkKeys (data : List DialogueNode) : List (List Char) :=
  data.flatMap fun n =>
    (choicesOf n).filterMap fun c =>
      if hasNode data c.nextId then some (key n.id c.nextId) else none

/-- One pushed link (Editor.tsx lines 130-136): the bidirectional flag is
the set lookup of the reversed joined key. -/
def mkLink (data : List DialogueNode) (n : DialogueNode) (c : DialogueChoice) : GraphLink :=
  { source := n.id, target := c.nextId, label := c.text,
    bidirectional := decide (key c.nextId n.id ∈ linkKeys data) }

/-- Second pass (Editor.tsx lines 125-142): the pushed link list. -/
def buildLinks (data : List DialogueNode) : List GraphLink :=
  data.flatMap fun n =>
    (choicesOf n).filterMap fun c =>
      if hasNode data c.nextId then some (mkLink data n c) else none

/-- The console warning text of Editor.tsx line 138. -/
def warnMsg (nid : List Char) : List Char :=
  String.toList "Missing target node: " ++ nid

/-- The console warnings emitted during the second pass, in emission
order (Editor.tsx line 138). -/
def warnings (data : List DialogueNode) : List (List Char) :=
  data.flatMap fun n =>
    (choicesOf n).filterMap fun c =>
      if hasNode data c.nextId then none else some (warnMsg c.nextId)

/-- Written from the words of the spec, for comparison with the source
computation: the set of all (sourceId, targetId) pairs that resolve to
real nodes (spec section 4.1, bidirectional detection). -/
def specResolvedPairs (data : List DialogueNode) : List (List Char × List Char) :=
  data.flatMap fun n =>
    (choicesOf n).filterMap fun c =>
      if hasNode data c.nextId then some (n.id, c.nextId) else none

/-- The same data with every dangling choice removed, used to state that
dropped choices leave the remaining links untouched. -/
def filterChoices (data : List DialogueNode) : List DialogueNode :=
  data.map fun n =>
    { n with choices := some ((choicesOf n).filter fun c => hasNode data c.nextId) }

/-- Edge label rendering (Editor.tsx line 203): labels longer than 25
characters are cut to 25 characters plus an ellipsis. -/
def truncateLabel (s : List Char) : List Char :=
  if 25 < s.length then s.take 25 ++ String.toList "..." else s

/-- The quoting applied to on-node content text by the template literals
of Editor.tsx line 244. -/
def quoted (s : List Char) : List Char := '"' :: (s ++ ['"'])

/-- On-node content text rendering (Editor.tsx line 244): text longer
than 25 characters is cut to 25 characters plus an ellipsis, quoted;
shorter text is quoted unmodified. -/
def nodeTextLabel (s : List Char) : List Char :=
  if 25 < s.length then quoted (s.take 25 ++ String.toList "...")
  else quoted s

/-- Observable outcome of one run of the graph render effect
(Editor.tsx lines 77-354): the built links, the console warnings, and
the list of onError invocations made by the effect.  The effect body
contains no call to the onError prop, so that list is empty. -/
structure RenderResult where
  links : List GraphLink
  consoleWarnings : List (List Char)
  errorReports : List (Option (List Char))
deriving DecidableEq

/-- One run of the graph render effect, restricted to its observable
data outcome: it builds the links, logs a warning per dangling choice,
and never invokes onError (no such call appears in the effect body). -/
def renderGraph (data : List DialogueNode) : RenderResult :=
  { links := buildLinks data, consoleWarnings := warnings data, errorReports := [] }

/-- Short name for string literals used in concrete inputs. -/
def strL (s : String) : List Char := s.toList

/-- A live 2D node position, as read by the tick handler. -/
@[ext]
structure Point where
  x : ℝ
  y : ℝ

/-- The path attribute computed per link per tick (Editor.tsx lines
257-289): empty string, a straight segment, or an arc with its radius. -/
inductive PathD where
  | empty : PathD
  | line (p q : Point) : PathD
  | arc (p : Point) (r : ℝ) (q : Point) : PathD

/-- Whether a computed path is an arc. -/
def PathD.isArc : PathD → Bool
  | .arc _ _ _ => true
  | _ => false

/-- Start and end point of a nonempty computed path. -/
def pathEndpoints : PathD → Option (Point × Point)
  | .empty => none
  | .line p q => some (p, q)
  | .arc p _ q => some (p, q)

/-- Squared Euclidean distance between two positions. -/
noncomputable def dist2 (p q : Point) : ℝ := (p.x - q.x) ^ 2 + (p.y - q.y) ^ 2

/-- The distance computed by the tick handler (Editor.tsx lines 258-260):
sqrt of dx squared plus dy squared. -/
noncomputable def edgeDist (s t : Point) : ℝ :=
  Real.sqrt ((t.x - s.x) ^ 2 + (t.y - s.y) ^ 2)

/-- The shortened start point (Editor.tsx lines 264-273): the source
center moved 28 units along the unit vector toward the target. -/
noncomputable def trimS (s t : Point) : Point :=
  ⟨s.x + (t.x - s.x) / edgeDist s t * 28, s.y + (t.y - s.y) / edgeDist s t * 28⟩

/-- The shortened end point (Editor.tsx lines 274-275): the target
center moved 28 units back along the unit vector. -/
noncomputable def trimT (s t : Point) : Point :=
  ⟨t.x - (t.x - s.x) / edgeDist s t * 28, t.y - (t.y - s.y) / edgeDist s t * 28⟩

/-- The per-tick path computation (Editor.tsx lines 257-289): empty path
at distance zero, otherwise an arc for bidirectional links (radius equal
to the recomputed shortened chord length, line 278) and a straight
segment otherwise. -/
noncomputable def linkPathD (s t : Point) (bidir : Bool) : PathD :=
  if edgeDist s t = 0 then PathD.empty
  else if bidir then PathD.arc (trimS s t) (edgeDist (trimS s t) (trimT s t)) (trimT s t)
  else PathD.line (trimS s t) (trimT s t)

/-- The randomized initial position of a node (Editor.tsx lines 107-108):
viewport center plus (random - 0.5) * 50 in each coordinate, where each
random draw lies in [0, 1). -/
noncomputable def initPos (w h rx ry : ℝ) : Point :=
  ⟨w / 2 + (rx - 0.5) * 50, h / 2 + (ry - 0.5) * 50⟩

/-- A simulation node as mutated by the drag handlers: position and the
optional pinned position fields fx, fy. -/
structure SimNode where
  id : List Char
  x : ℝ
  y : ℝ
  fx : Option ℝ := none
  fy : Option ℝ := none

/-- The d3 simulation state the component manipulates: the node and link
arrays it was built from, the cooling factor alpha (maximum 1), its
target, the charge strength, and whether ticking is running. -/
structure SimState where
  nodes : List SimNode
  links : List GraphLink
  alpha : ℝ
  alphaTarget : ℝ
  chargeStrength : ℝ
  running : Bool

/-- The repulsion-change effect (Editor.tsx lines 67-74): replace the
charge force strength with the negated repulsion value, set alpha to
0.3, and restart ticking.  Its dependency list is [repulsionForce], and
the graph rebuild effect depends only on [data, dimensions, isDarkMode]
(line 354), so no rebuild happens: nodes and links are untouched. -/
noncomputable def updateForceEffect (R : ℝ) (s : SimState) : SimState :=
  { s with chargeStrength := -R, alpha := 0.3, running := true }

/-- dragstarted (Editor.tsx lines 333-337): when no other gesture is
active, raise alphaTarget to 0.3 and restart; pin the node at its
current position. -/
noncomputable def dragstarted (eventActive : Bool) (s : SimState) (d : SimNode) :
    SimState × SimNode :=
  (if eventActive then s else { s with alphaTarget := 0.3, running := true },
   { d with fx := some d.x, fy := some d.y })

/-- dragged (Editor.tsx lines 339-342): track the pointer with the
pinned position. -/
def dragged (px py : ℝ) (d : SimNode) : SimNode :=
  { d with fx := some px, fy := some py }

/-- dragended (Editor.tsx lines 344-348): when no other gesture is
active, drop alphaTarget back to 0; clear both pinned fields. -/
noncomputable def dragended (eventActive : Bool) (s : SimState) (d : SimNode) :
    SimState × SimNode :=
  (if eventActive then s else { s with alphaTarget := 0 },
   { d with fx := none, fy := none })

/-- Modelled from the spec: "when set, the simulation must not move this
node; it is held exactly at (fx, fy)" (spec section 3, GraphNode) — the
pin application inside the external force library, which is not part of
src/.  Given a proposed next position from the integrator, a pinned
coordinate overrides it. -/
def applyPin (d : SimNode) (p : ℝ × ℝ) : ℝ × ℝ :=
  (d.fx.getD p.1, d.fy.getD p.2)

/-- Concrete input whose node ids contain the bar character used as the
key delimiter: nodes a, b|c, a|b, c with edges b|c to a and a|b to c. -/
def cexData : List DialogueNode := [
  { id := strL "a", text := strL "A", choices := some [] },
  { id := strL "b|c", text := strL "B",
    choices := some [{ text := strL "go", nextId := strL "a" }] },
  { id := strL "a|b", text := strL "C",
    choices := some [{ text := strL "go", nextId := strL "c" }] },
  { id := strL "c", text := strL "D", choices := some [] } ]

/-- The spec scenario with a dangling target: one node whose single
choice points at a ghost id. -/
def ghostData : List DialogueNode := [
  { id := strL "a", text := strL "hi",
    choices := some [{ text := strL "go", nextId := strL "ghost" }] } ]

/-- The spec scenario with two mutually linked nodes. -/
def twoNodeData : List DialogueNode := [
  { id := strL "a", text := strL "hi",
    choices := some [{ text := strL "go", nextId := strL "b" }] },
  { id := strL "b", text := strL "bye",
    choices := some [{ text := strL "back", nextId := strL "a" }] } ]

/-- A choice pointing back at its own node. -/
def selfChoice : DialogueChoice := { text := strL "loop", nextId := strL "a" }

/-- A node whose single choice points back at itself. -/
def selfNode : DialogueNode :=
  { id := strL "a", text := strL "hi", choices := some [selfChoice] }

/-- A single node whose choice points back at itself. -/
def selfLoopData : List DialogueNode := [selfNode]

/-- No node id contains the bar character the source uses as the key
delimiter. -/
def noBarIds (data : List DialogueNode) : Prop := ∀ n ∈ data, '|' ∉ n.id

/-- A 30 character text used to exercise the truncation rule. -/
def longText : List Char := strL "abcdefghijklmnopqrstuvwxyz1234"

/-! Helper lemmas about the builder. -/

/-- A guarded some equals some exactly when the guard holds and the
payloads agree. -/
theorem if_some_eq_some {α : Type} {p : Bool} {a l : α} :
    ((if p then some a else none) = some l) ↔ (p = true ∧ a = l) := by
  cases p <;> simp

/-- The node lookup succeeds exactly when some input node carries the id. -/
theorem hasNode_iff {data : List DialogueNode} {nid : List Char} :
    hasNode data nid = true ↔ ∃ n ∈ data, n.id = nid := by
  simp [hasNode, List.mem_map]

/-- Membership in the built link list, unfolded to the node and choice
that produced the link. -/
theorem mem_buildLinks {data : List DialogueNode} {l : GraphLink} :
    l ∈ buildLinks data ↔
      ∃ n ∈ data, ∃ c ∈ choicesOf n,
        hasNode data c.nextId = true ∧ l = mkLink data n c := by
  simp only [buildLinks, List.mem_flatMap, List.mem_filterMap, if_some_eq_some]
  constructor
  · rintro ⟨n, hn, c, hc, hres, rfl⟩
    exact ⟨n, hn, c, hc, hres, rfl⟩
  · rintro ⟨n, hn, c, hc, hres, rfl⟩
    exact ⟨n, hn, c, hc, hres, rfl⟩

/-- Membership in the spec pair set, unfolded to the node and choice
that produced the pair. -/
theorem mem_specResolvedPairs {data : List DialogueNode} {a b : List Char} :
    (a, b) ∈ specResolvedPairs data ↔
      ∃ n ∈ data, ∃ c ∈ choicesOf n,
        hasNode data c.nextId = true ∧ a = n.id ∧ b = c.nextId := by
  simp only [specResolvedPairs, List.mem_flatMap, List.mem_filterMap, if_some_eq_some,
    Prod.mk.injEq]
  constructor
  · rintro ⟨n, hn, c, hc, hres, ha, hb⟩
    exact ⟨n, hn, c, hc, hres, ha.symm, hb.symm⟩
  · rintro ⟨n, hn, c, hc, hres, ha, hb⟩
    exact ⟨n, hn, c, hc, hres, ha.symm, hb.symm⟩

/-- The key set of the first pass is the spec pair set joined by the
delimiter. -/
theorem linkKeys_eq_map (data : List DialogueNode) :
    linkKeys data = (specResolvedPairs data).map fun p => key p.1 p.2 := by
  unfold linkKeys specResolvedPairs
  rw [List.map_flatMap]
  congr 1
  funext n
  rw [List.map_filterMap]
  congr 1
  funext c
  cases h : hasNode data c.nextId <;> simp [h]

/-- Joining two strings with the bar delimiter is injective as long as
the left parts are bar-free. -/
theorem append_bar_inj : ∀ (s1 : List Char), '|' ∉ s1 → ∀ (s2 : List Char), '|' ∉ s2 →
    ∀ (t1 t2 : List Char), s1 ++ '|' :: t1 = s2 ++ '|' :: t2 → s1 = s2 ∧ t1 = t2 := by
  intro s1
  induction s1 with
  | nil =>
    intro _ s2 h2 t1 t2 h
    cases s2 with
    | nil =>
      simp only [List.nil_append, List.cons.injEq] at h
      exact ⟨rfl, h.2⟩
    | cons d ds =>
      simp only [List.nil_append, List.cons_append, List.cons.injEq] at h
      obtain ⟨hd, _⟩ := h
      subst hd
      exact absurd (List.mem_cons_self _ _) h2
  | cons c cs ih =>
    intro h1 s2 h2 t1 t2 h
    cases s2 with
    | nil =>
      simp only [List.nil_append, List.cons_append, List.cons.injEq] at h
      obtain ⟨hc, _⟩ := h
      subst hc
      exact absurd (List.mem_cons_self _ _) h1
    | cons d ds =>
      simp only [List.cons_append, List.cons.injEq] at h
      obtain ⟨hcd, ht⟩ := h
      subst hcd
      have h1t : '|' ∉ cs := fun hx => h1 (List.mem_cons_of_mem _ hx)
      have h2t : '|' ∉ ds := fun hx => h2 (List.mem_cons_of_mem _ hx)
      obtain ⟨hs, htt⟩ := ih h1t ds h2t t1 t2 ht
      exact ⟨by rw [hs], htt⟩

/-- A resolving target id is the id of some input node, hence bar-free
whenever all node ids are. -/
theorem barFree_of_hasNode {data : List DialogueNode} {nid : List Char}
    (hbar : noBarIds data) (h : hasNode data nid = true) : '|' ∉ nid := by
  obtain ⟨n, hn, rfl⟩ := hasNode_iff.mp h
  exact hbar n hn

/-- Claim C1 (amended): when no node id contains the bar character used
as the key delimiter, a built edge is flagged bidirectional exactly when
the set of resolving (sourceId, targetId) pairs contains its reverse
pair.  Without the bar-free restriction the source's joined string keys
can conflate distinct pairs. -/
theorem c1_bidirectional_iff_reverse_pair (data : List DialogueNode)
    (hbar : noBarIds data) :
    ∀ l ∈ buildLinks data,
      (l.bidirectional = true ↔ (l.target, l.source) ∈ specResolvedPairs data) := by
  intro l hl
  obtain ⟨n, hn, c, hc, hres, rfl⟩ := mem_buildLinks.mp hl
  simp only [mkLink, decide_eq_true_eq]
  constructor
  · intro hmem
    rw [linkKeys_eq_map] at hmem
    obtain ⟨p, hp, hkey⟩ := List.mem_map.mp hmem
    have hp2 : (p.1, p.2) ∈ specResolvedPairs data := by simpa using hp
    obtain ⟨m, hm, c2, hc2, hres2, hpa, hpb⟩ := mem_specResolvedPairs.mp hp2
    have hbar1 : '|' ∉ p.1 := by rw [hpa]; exact hbar m hm
    have hbarTgt : '|' ∉ c.nextId := barFree_of_hasNode hbar hres
    obtain ⟨hs, ht⟩ := append_bar_inj p.1 hbar1 c.nextId hbarTgt p.2 n.id hkey
    have hpEq : p = (c.nextId, n.id) := by
      rw [Prod.ext_iff]
      exact ⟨hs, ht⟩
    rw [← hpEq]
    exact hp
  · intro hmem
    rw [linkKeys_eq_map]
    exact List.mem_map.mpr ⟨(c.nextId, n.id), hmem, rfl⟩

/-- Witness for C1 at the spec's two-node scenario: both edges of the
mutual pair are flagged bidirectional. -/
theorem c1_bidirectional_iff_reverse_pair_witness :
    noBarIds twoNodeData ∧
      ∀ l ∈ buildLinks twoNodeData,
        (l.bidirectional = true ↔ (l.target, l.source) ∈ specResolvedPairs twoNodeData) :=
  ⟨by unfold noBarIds; decide,
    c1_bidirectional_iff_reverse_pair twoNodeData (by unfold noBarIds; decide)⟩

/-- Counterexample to C1 as stated: with node ids a, b|c, a|b, c the
edge from b|c to a is flagged bidirectional although the pair set does
not contain the reverse pair (a, b|c), because the joined key a|b|c is
also produced by the pair (a|b, c). -/
theorem c1_claim_cex :
    ¬ ∀ l ∈ buildLinks cexData,
        (l.bidirectional = true ↔ (l.target, l.source) ∈ specResolvedPairs cexData) := by
  decide

/-- Filtering a list before a filterMap that is none on the removed
elements changes nothing. -/
theorem filterMap_filter_of_none {α β : Type} (p : α → Bool) (f : α → Option β)
    (h : ∀ a, p a = false → f a = none) :
    ∀ l : List α, (l.filter p).filterMap f = l.filterMap f := by
  intro l
  induction l with
  | nil => rfl
  | cons a l ih =>
    cases hp : p a with
    | false => simp [List.filter_cons, hp, List.filterMap_cons, h a hp, ih]
    | true => simp [List.filter_cons, hp, List.filterMap_cons, ih]

/-- A filterMap that keeps exactly the elements failing a test is the
mapped filter of that test. -/
theorem filterMap_ite_none_eq_map_filter {α β : Type} (p : α → Bool) (f : α → β)
    (l : List α) :
    (l.filterMap fun a => if p a then none else some (f a)) =
      (l.filter fun a => !p a).map f := by
  induction l with
  | nil => rfl
  | cons a l ih => cases hp : p a <;> simp [List.filterMap_cons, List.filter_cons, hp, ih]

/-- Removing dangling choices does not change the node ids. -/
theorem filterChoices_id_map (data : List DialogueNode) :
    (filterChoices data).map DialogueNode.id = data.map DialogueNode.id := by
  simp [filterChoices, List.map_map]

/-- Removing dangling choices does not change the node lookup. -/
theorem hasNode_filterChoices (data : List DialogueNode) (nid : List Char) :
    hasNode (filterChoices data) nid = hasNode data nid := by
  simp [hasNode, filterChoices_id_map]

/-- Removing dangling choices does not change the first-pass key set. -/
theorem linkKeys_filterChoices (data : List DialogueNode) :
    linkKeys (filterChoices data) = linkKeys data := by
  unfold linkKeys
  simp only [hasNode_filterChoices]
  unfold filterChoices
  rw [List.flatMap_map]
  congr 1
  funext n
  have hch : choicesOf
      { n with choices := some ((choicesOf n).filter fun c => hasNode data c.nextId) } =
      (choicesOf n).filter fun c => hasNode data c.nextId := rfl
  rw [hch]
  exact filterMap_filter_of_none _ _ (fun c hc => by simp [hc]) (choicesOf n)

/-- Removing dangling choices does not change the built edge list. -/
theorem buildLinks_filterChoices (data : List DialogueNode) :
    buildLinks (filterChoices data) = buildLinks data := by
  unfold buildLinks
  simp only [mkLink, hasNode_filterChoices, linkKeys_filterChoices]
  unfold filterChoices
  rw [List.flatMap_map]
  congr 1
  funext n
  have hch : choicesOf
      { n with choices := some ((choicesOf n).filter fun c => hasNode data c.nextId) } =
      (choicesOf n).filter fun c => hasNode data c.nextId := rfl
  rw [hch]
  exact filterMap_filter_of_none _ _ (fun c hc => by simp [hc]) (choicesOf n)

/-- Claim C2: dangling choices yield no edge but one warning each, and
the surviving edges are exactly those built from the data with the
dangling choices removed, in the same order with the same fields. -/
theorem c2_dangling_choices_dropped (data : List DialogueNode) :
    buildLinks (filterChoices data) = buildLinks data ∧
    warnings data = (data.flatMap fun n =>
      ((choicesOf n).filter fun c => !(hasNode data c.nextId)).map fun c =>
        warnMsg c.nextId) ∧
    (buildLinks data).all (fun l => hasNode data l.target) = true := by
  refine ⟨buildLinks_filterChoices data, ?_, ?_⟩
  · unfold warnings
    congr 1
    funext n
    exact filterMap_ite_none_eq_map_filter (fun c => hasNode data c.nextId)
      (fun c => warnMsg c.nextId) (choicesOf n)
  · rw [List.all_eq_true]
    intro l hl
    obtain ⟨n, hn, c, hc, hres, rfl⟩ := mem_buildLinks.mp hl
    simpa [mkLink] using hres

/-- Claim C3 (amended): the graph render effect never invokes the
onError callback — its invocation list is always empty — and a dangling
edge target is reported only through the console warning list, which is
empty exactly when every choice resolves. -/
theorem c3_onError_never_invoked (data : List DialogueNode) :
    (renderGraph data).errorReports = [] ∧
      ((renderGraph data).consoleWarnings = [] ↔
        ∀ n ∈ data, ∀ c ∈ choicesOf n, hasNode data c.nextId = true) := by
  refine ⟨rfl, ?_⟩
  show warnings data = [] ↔ _
  unfold warnings
  rw [List.flatMap_eq_nil_iff]
  constructor
  · intro hw n hn c hc
    have hnone := List.filterMap_eq_nil_iff.mp (hw n hn) c hc
    cases hres : hasNode data c.nextId with
    | true => rfl
    | false => rw [hres] at hnone; simp at hnone
  · intro hall n hn
    rw [List.filterMap_eq_nil_iff]
    intro c hc
    rw [hall n hn c hc]
    rfl

/-- Counterexample to C3 as stated: on the spec's ghost scenario the
render effect logs a console warning but makes no onError invocation,
so the dangling target is not surfaced through the error channel. -/
theorem c3_claim_cex :
    (renderGraph ghostData).consoleWarnings ≠ [] ∧
      (renderGraph ghostData).errorReports = [] := by
  decide

/-- Claim C4: text of 26 or more characters renders as exactly its
first 25 characters plus the ellipsis (node content text additionally
quoted); text of 25 or fewer characters renders unmodified (content
text quoted). -/
theorem c4_label_truncation (s : List Char) :
    (26 ≤ s.length →
      truncateLabel s = s.take 25 ++ String.toList "..." ∧
      (s.take 25).length = 25 ∧
      nodeTextLabel s = quoted (s.take 25 ++ String.toList "...")) ∧
    (s.length ≤ 25 →
      truncateLabel s = s ∧ nodeTextLabel s = quoted s) := by
  constructor
  · intro h
    have h25 : 25 < s.length := by omega
    refine ⟨by simp [truncateLabel, h25], ?_, by simp [nodeTextLabel, h25]⟩
    simp [List.length_take]
    omega
  · intro h
    have h25 : ¬ 25 < s.length := by omega
    exact ⟨by simp [truncateLabel, h25], by simp [nodeTextLabel, h25]⟩

/-- Witness for C4 at a 30 character text. -/
theorem c4_label_truncation_witness :
    26 ≤ longText.length ∧
      (truncateLabel longText = longText.take 25 ++ String.toList "..." ∧
        (longText.take 25).length = 25 ∧
        nodeTextLabel longText = quoted (longText.take 25 ++ String.toList "...")) :=
  ⟨by decide, (c4_label_truncation longText).1 (by decide)⟩

/-- The tick distance of a point to itself is zero. -/
theorem edgeDist_self (p : Point) : edgeDist p p = 0 := by
  simp [edgeDist]

/-- At coincident endpoints the tick handler returns the empty path. -/
theorem linkPathD_self (p : Point) (b : Bool) : linkPathD p p b = PathD.empty := by
  simp [linkPathD, edgeDist_self]

/-- Claim C5: when source and target positions coincide exactly, the
per-tick path computation returns the empty path; the division by the
distance sits in the branch guarded by a nonzero distance, and the
computation is a total function. -/
theorem c5_zero_distance_empty_path (s t : Point) (b : Bool) (h : s = t) :
    linkPathD s t b = PathD.empty := by
  subst h
  exact linkPathD_self s b

/-- Witness for C5 at a coincident pair of positions. -/
theorem c5_zero_distance_empty_path_witness :
    (Point.mk 100 100 = Point.mk 100 100) ∧
      linkPathD (Point.mk 100 100) (Point.mk 100 100) true = PathD.empty :=
  ⟨rfl, c5_zero_distance_empty_path _ _ true rfl⟩

/-- Claim C6: for non-coincident source and target positions, the
computed path starts within 28 units of the source center and ends
within 28 units of the target center (in fact at exactly 28 units),
for both the straight and the arc branch. -/
theorem c6_endpoints_within_boundary (s t : Point) (b : Bool) (h : s ≠ t) :
    Real.sqrt (dist2 (trimS s t) s) ≤ 28 ∧
    Real.sqrt (dist2 (trimT s t) t) ≤ 28 ∧
    pathEndpoints (linkPathD s t b) = some (trimS s t, trimT s t) := by
  have hxy : t.x - s.x ≠ 0 ∨ t.y - s.y ≠ 0 := by
    by_contra hc
    push_neg at hc
    obtain ⟨hx, hy⟩ := hc
    apply h
    ext
    · linarith [sub_eq_zero.mp hx]
    · linarith [sub_eq_zero.mp hy]
  have hsum : 0 < (t.x - s.x) ^ 2 + (t.y - s.y) ^ 2 := by
    rcases hxy with hx | hy
    · have h1 : (t.x - s.x) ^ 2 ≠ 0 := pow_ne_zero 2 hx
      have h2 := sq_nonneg (t.x - s.x)
      have h3 := sq_nonneg (t.y - s.y)
      have h4 : 0 < (t.x - s.x) ^ 2 := lt_of_le_of_ne h2 (Ne.symm h1)
      linarith
    · have h1 : (t.y - s.y) ^ 2 ≠ 0 := pow_ne_zero 2 hy
      have h2 := sq_nonneg (t.y - s.y)
      have h3 := sq_nonneg (t.x - s.x)
      have h4 : 0 < (t.y - s.y) ^ 2 := lt_of_le_of_ne h2 (Ne.symm h1)
      linarith
  have hD : 0 < edgeDist s t := Real.sqrt_pos.mpr hsum
  have hDne : edgeDist s t ≠ 0 := ne_of_gt hD
  have hD2 : edgeDist s t ^ 2 = (t.x - s.x) ^ 2 + (t.y - s.y) ^ 2 :=
    Real.sq_sqrt (le_of_lt hsum)
  have hs784 : dist2 (trimS s t) s = 784 := by
    have he : dist2 (trimS s t) s =
        784 * ((t.x - s.x) ^ 2 + (t.y - s.y) ^ 2) / edgeDist s t ^ 2 := by
      simp only [dist2, trimS]
      field_simp
      ring
    rw [he, ← hD2, mul_div_assoc, div_self (pow_ne_zero 2 hDne), mul_one]
  have ht784 : dist2 (trimT s t) t = 784 := by
    have he : dist2 (trimT s t) t =
        784 * ((t.x - s.x) ^ 2 + (t.y - s.y) ^ 2) / edgeDist s t ^ 2 := by
      simp only [dist2, trimT]
      field_simp
      ring
    rw [he, ← hD2, mul_div_assoc, div_self (pow_ne_zero 2 hDne), mul_one]
  have h28 : Real.sqrt 784 = 28 := by
    rw [show (784 : ℝ) = 28 ^ 2 by norm_num, Real.sqrt_sq (by norm_num : (0:ℝ) ≤ 28)]
  refine ⟨by rw [hs784, h28], by rw [ht784, h28], ?_⟩
  rw [linkPathD, if_neg hDne]
  cases b <;> simp [pathEndpoints]

/-- Witness for C6 at source (0,0) and target (3,4). -/
theorem c6_endpoints_within_boundary_witness :
    (Point.mk 0 0 ≠ Point.mk 3 4) ∧
      (Real.sqrt (dist2 (trimS (Point.mk 0 0) (Point.mk 3 4)) (Point.mk 0 0)) ≤ 28 ∧
       Real.sqrt (dist2 (trimT (Point.mk 0 0) (Point.mk 3 4)) (Point.mk 3 4)) ≤ 28 ∧
       pathEndpoints (linkPathD (Point.mk 0 0) (Point.mk 3 4) false) =
         some (trimS (Point.mk 0 0) (Point.mk 3 4),
           trimT (Point.mk 0 0) (Point.mk 3 4))) := by
  have h : Point.mk (0 : ℝ) 0 ≠ Point.mk 3 4 := by
    intro hq
    have hx := congrArg Point.x hq
    norm_num at hx
  exact ⟨h, c6_endpoints_within_boundary (Point.mk 0 0) (Point.mk 3 4) false h⟩

/-- Claim C7: changing the repulsion parameter at runtime sets alpha to
0.3 (of maximum 1) and restarts ticking while leaving the node array,
every position in it, and the link array untouched: the effect only
replaces the charge strength, and the rebuild effect does not depend on
the repulsion parameter. -/
theorem c7_repulsion_change_frame (R : ℝ) (s : SimState) :
    (updateForceEffect R s).nodes = s.nodes ∧
    (updateForceEffect R s).links = s.links ∧
    (updateForceEffect R s).alpha = 0.3 ∧
    (updateForceEffect R s).running = true ∧
    (updateForceEffect R s).chargeStrength = -R :=
  ⟨rfl, rfl, rfl, rfl, rfl⟩

/-- Claim C8: ending a drag clears both pinned fields and leaves the
node position as it was, so a subsequent pin application no longer
overrides a proposed position; drag end leaves alpha untouched and
only ever lowers alphaTarget to 0, never applying the 0.3 reset used
by drag start and parameter changes. -/
theorem c8_drag_end_unpins (eventActive : Bool) (s : SimState) (d : SimNode) :
    (dragended eventActive s d).2.fx = none ∧
    (dragended eventActive s d).2.fy = none ∧
    (dragended eventActive s d).2.x = d.x ∧
    (dragended eventActive s d).2.y = d.y ∧
    (dragended eventActive s d).1.alpha = s.alpha ∧
    ((dragended eventActive s d).1.alphaTarget = s.alphaTarget ∨
      (dragended eventActive s d).1.alphaTarget = 0) ∧
    (∀ p : ℝ × ℝ, applyPin (dragended eventActive s d).2 p = p) := by
  refine ⟨rfl, rfl, rfl, rfl, ?_, ?_, ?_⟩
  · cases eventActive <;> rfl
  · cases eventActive with
    | true => exact Or.inl rfl
    | false => exact Or.inr rfl
  · intro p
    rfl

/-- Claim C9: whatever the outcomes of the two uniform draws in [0, 1),
the initial position lies within 50 units of the viewport center. -/
theorem c9_init_position_near_center (w hgt rx ry : ℝ)
    (h0x : 0 ≤ rx) (h1x : rx < 1) (h0y : 0 ≤ ry) (h1y : ry < 1) :
    Real.sqrt (dist2 (initPos w hgt rx ry) (Point.mk (w / 2) (hgt / 2))) ≤ 50 := by
  have he : dist2 (initPos w hgt rx ry) (Point.mk (w / 2) (hgt / 2)) =
      ((rx - 0.5) * 50) ^ 2 + ((ry - 0.5) * 50) ^ 2 := by
    simp only [dist2, initPos]
    ring
  have hx2 : ((rx - 0.5) * 50) ^ 2 ≤ 625 := by nlinarith
  have hy2 : ((ry - 0.5) * 50) ^ 2 ≤ 625 := by nlinarith
  have hle : dist2 (initPos w hgt rx ry) (Point.mk (w / 2) (hgt / 2)) ≤ 2500 := by
    rw [he]
    linarith
  calc Real.sqrt (dist2 (initPos w hgt rx ry) (Point.mk (w / 2) (hgt / 2)))
      ≤ Real.sqrt 2500 := Real.sqrt_le_sqrt hle
    _ = 50 := by
        rw [show (2500 : ℝ) = 50 ^ 2 by norm_num, Real.sqrt_sq (by norm_num : (0:ℝ) ≤ 50)]

/-- Witness for C9 with both draws equal to one half on an 800 by 600
viewport. -/
theorem c9_init_position_near_center_witness :
    (0 ≤ (1/2 : ℝ) ∧ (1/2 : ℝ) < 1) ∧
      Real.sqrt (dist2 (initPos 800 600 (1/2) (1/2))
        (Point.mk (800 / 2) (600 / 2))) ≤ 50 :=
  ⟨⟨by norm_num, by norm_num⟩,
    c9_init_position_near_center 800 600 (1/2) (1/2)
      (by norm_num) (by norm_num) (by norm_num) (by norm_num)⟩

/-- Claim C10 (amended): a choice pointing back at its own node yields a
self-loop edge flagged bidirectional = true (its joined key is its own
reverse); since at render time both endpoints are the same node, the
computed distance is zero and the tick handler emits the empty path, so
the self-loop is not drawn as an arc. -/
theorem c10_self_loop_bidirectional (data : List DialogueNode) (n : DialogueNode)
    (c : DialogueChoice)
    (hn : n ∈ data) (hc : c ∈ choicesOf n) (hself : c.nextId = n.id) :
    GraphLink.mk n.id n.id c.text true ∈ buildLinks data ∧
      ∀ p : Point, linkPathD p p true = PathD.empty := by
  constructor
  · apply mem_buildLinks.mpr
    have hres : hasNode data n.id = true := hasNode_iff.mpr ⟨n, hn, rfl⟩
    have hresc : hasNode data c.nextId = true := by rw [hself]; exact hres
    refine ⟨n, hn, c, hc, hresc, ?_⟩
    have hkmem : key n.id n.id ∈ linkKeys data := by
      rw [linkKeys_eq_map]
      exact List.mem_map.mpr ⟨(n.id, n.id),
        mem_specResolvedPairs.mpr ⟨n, hn, c, hc, hresc, rfl, hself.symm⟩, rfl⟩
    simp [mkLink, hself, GraphLink.mk.injEq]
    exact hkmem
  · intro p
    exact linkPathD_self p true

/-- Witness for C10 at the concrete self-loop input. -/
theorem c10_self_loop_bidirectional_witness :
    (selfNode ∈ selfLoopData ∧ selfChoice ∈ choicesOf selfNode ∧
      selfChoice.nextId = selfNode.id) ∧
      (GraphLink.mk selfNode.id selfNode.id selfChoice.text true ∈
          buildLinks selfLoopData ∧
        ∀ p : Point, linkPathD p p true = PathD.empty) :=
  ⟨⟨by decide, by decide, by decide⟩,
    c10_self_loop_bidirectional selfLoopData selfNode selfChoice
      (by decide) (by decide) (by decide)⟩

/-- Counterexample to C10 as stated: the self-loop edge is built with
bidirectional = true, but at its necessarily coincident endpoints the
tick handler emits the empty path, not an arc. -/
theorem c10_claim_cex :
    buildLinks selfLoopData = [GraphLink.mk (strL "a") (strL "a") (strL "loop") true] ∧
      linkPathD (Point.mk 100 100) (Point.mk 100 100) true = PathD.empty ∧
      (linkPathD (Point.mk 100 100) (Point.mk 100 100) true).isArc = false := by
  refine ⟨by decide, linkPathD_self _ _, ?_⟩
  rw [linkPathD_self]
  rfl
